import Mathlib

/-!
Verification of the MaxScale filter modules in src/server/modules/filter
(ccrfilter.c, qlafilter.c, topfilter.c).

Each C function used by the claims is translated into an executable Lean
definition.  External collaborators that live outside this repository
(libc regex via regcomp/regexec, libc atoi, the wall clock, the SQL text
extractor, the file system) enter the model as oracle arguments or as plain
input fields of the request records.  Machine integers are modelled as Int
(the values involved never approach the 32-bit range in the scenarios below,
and the source performs no intentional overflow).
-/

/-- One name/value configuration pair (FILTER_PARAMETER in filter.h). -/
structure FilterParam where
  name : String
  value : String
deriving DecidableEq

/-- The two regcomp flag bits that the three filters manipulate:
REG_ICASE (set initially, toggled by the ignorecase/case options) and
REG_EXTENDED (set by the extended option). -/
structure CFlags where
  icase : Bool
  extended : Bool
deriving DecidableEq

/-- Oracle for libc regcomp: given the flag bits and the pattern text it
returns the compiled matcher (a predicate telling whether regexec returns 0
on a subject string) on success, and none when compilation fails. -/
abbrev RegcompOracle := CFlags → String → Option (String → Bool)

/-- Evaluation of regexec against a possibly missing compiled pattern.
A none value models a regex_t that was never successfully compiled; the
source would invoke regexec on indeterminate data there, which we model as
matching nothing. -/
def regexecMatches : Option (String → Bool) → String → Bool
  | some f, s => f s
  | none, _ => false

/-- Decimal digit value of a character, if it is a digit. -/
def digitVal (c : Char) : Option Nat :=
  if c.toNat ≥ 48 ∧ c.toNat ≤ 57 then some (c.toNat - 48) else none

/-- Accumulate leading decimal digits, stopping at the first non-digit. -/
def atoiGo : List Char → Nat → Nat
  | [], acc => acc
  | c :: rest, acc =>
    match digitVal c with
    | some d => atoiGo rest (acc * 10 + d)
    | none => acc

/-- Model of libc atoi on already-trimmed input: an optional minus sign
followed by the leading run of decimal digits; anything else reads as 0. -/
def atoi (s : String) : Int :=
  match s.data with
  | '-' :: rest => -(atoiGo rest 0 : Int)
  | l => (atoiGo l 0 : Int)

/-- Case-insensitive string comparison, modelling strcasecmp returning 0. -/
def strcaseEq (a b : String) : Bool := a.toLower == b.toLower

/-! ## ccrfilter.c — the routing hysteresis filter -/

/-- CCR_DEFAULT_TIME from ccrfilter.c. -/
def CCR_DEFAULT_TIME : Int := 60

/-- Modelled from the spec: the values of qc_query_op_t come from
query_classifier.h, which is not under src/.  QUERY_OP_UNDEFINED is the
default value the embedded null classifier (src/unnamed/part_000) returns
for every buffer it cannot classify, i.e. the zero enumerator, and
QUERY_OP_SELECT is a distinct nonzero flag.  Only the fact that
QUERY_OP_UNDEFINED is 0 (so that it has no bit outside QUERY_OP_SELECT)
matters for the theorems below. -/
def QUERY_OP_UNDEFINED : Nat := 0

/-- Modelled from the spec: the select enumerator of qc_query_op_t, the
lowest nonzero flag (see QUERY_OP_UNDEFINED above). -/
def QUERY_OP_SELECT : Nat := 1

/-- Modelled from the spec: a data-modification enumerator of qc_query_op_t
(update), some flag distinct from the select flag. -/
def QUERY_OP_UPDATE : Nat := 2

/-- The branch test of ccrfilter routeQuery, line 305:
(qc_get_operation(queue) & ~QUERY_OP_SELECT) != 0 on a 32-bit int. -/
def ccrNotSimpleSelect (op : Nat) : Bool :=
  op &&& (0xffffffff ^^^ QUERY_OP_SELECT) != 0

/-- Instance-level running totals of ccrfilter (struct lagstats). -/
structure LAGSTATS where
  n_add_count : Int
  n_add_time : Int
  n_modified : Int
deriving DecidableEq

/-- CCR_INSTANCE.  matchStr and nomatchStr model the match and nomatch fields and keep the pattern text (the source
fields are named match and nomatch; match is a Lean keyword).  re and nore
hold the compiled matchers when regcomp succeeded; ccrfilter keeps the
pattern text and merely logs when compilation fails, so matchStr may be
present while re is none. -/
structure CCR_INSTANCE where
  matchStr : Option String
  nomatchStr : Option String
  time : Int
  count : Int
  stats : LAGSTATS
  re : Option (String → Bool)
  nore : Option (String → Bool)

/-- CCR_SESSION: the per-session hysteresis state. -/
structure CCR_SESSION where
  hints_left : Int
  last_modification : Int
deriving DecidableEq

/-- Intermediate state of the ccrfilter createInstance parameter loop. -/
structure CCRBuild where
  count : Int
  time : Int
  matchStr : Option String
  nomatchStr : Option String
deriving DecidableEq

/-- One iteration of the ccrfilter createInstance parameter loop
(ccrfilter.c lines 143-165).  Unrecognized parameters are only logged. -/
def ccrParamStep (a : CCRBuild) (p : FilterParam) : CCRBuild :=
  if p.name = "count" then { a with count := atoi p.value }
  else if p.name = "time" then { a with time := atoi p.value }
  else if p.name = "match" then { a with matchStr := some p.value }
  else if p.name = "ignore" then { a with nomatchStr := some p.value }
  else a

/-- One iteration of the ccrfilter createInstance option loop
(ccrfilter.c lines 167-188); unsupported options are only logged. -/
def ccrApplyOption (f : CFlags) (opt : String) : CFlags :=
  if strcaseEq opt "ignorecase" then { f with icase := true }
  else if strcaseEq opt "case" then { f with icase := false }
  else if strcaseEq opt "extended" then { f with extended := true }
  else f

/-- createInstance of ccrfilter.c (lines 126-208).  MXS_CALLOC is modelled
as succeeding.  Note that the function returns the instance unconditionally:
a pattern that fails to compile, or an unexpected parameter, is only logged
through MXS_ERROR and never turns the result into a failure. -/
def ccrCreateInstance (regcomp : RegcompOracle)
    (filterStandardParameter : String → Bool)
    (options : List String) (params : List FilterParam) : Option CCR_INSTANCE :=
  let a := params.foldl ccrParamStep
    { count := 0, time := CCR_DEFAULT_TIME, matchStr := none, nomatchStr := none }
  let cflags := options.foldl ccrApplyOption { icase := true, extended := false }
  let re := match a.matchStr with
    | some m => regcomp cflags m
    | none => none
  let nore := match a.nomatchStr with
    | some m => regcomp cflags m
    | none => none
  some { matchStr := a.matchStr, nomatchStr := a.nomatchStr, time := a.time,
         count := a.count, stats := ⟨0, 0, 0⟩, re := re, nore := nore }

/-- newSession of ccrfilter.c (lines 218-231): hints_left and
last_modification start at zero. -/
def ccrNewSession : CCR_SESSION :=
  { hints_left := 0, last_modification := 0 }

/-- What ccrfilter routeQuery did to the message before forwarding it. -/
inductive CCRAction where
  | notSql
  | modified
  | modSkipped
  | modNoSql
  | hintByCount
  | hintByTime
  | pass
deriving DecidableEq

/-- One incoming request as ccrfilter sees it: the result of
modutil_is_SQL, of qc_get_operation and of modutil_get_SQL (all external
to the filter). -/
structure CCRQuery where
  isSQL : Bool
  op : Nat
  sql : Option String

/-- routeQuery of ccrfilter.c (lines 286-340).  The returned action records
which branch annotated the message; in every case the source then forwards
the queue to the downstream neighbor.  now is the value of time(NULL). -/
def ccrRouteQuery (inst : CCR_INSTANCE) (s : CCR_SESSION) (now : Int)
    (q : CCRQuery) : CCR_INSTANCE × CCR_SESSION × CCRAction :=
  if q.isSQL then
    if ccrNotSimpleSelect q.op then
      match q.sql with
      | some sql =>
        if inst.nomatchStr.isNone || !(regexecMatches inst.nore sql) then
          if inst.matchStr.isNone || regexecMatches inst.re sql then
            ({ inst with stats :=
                { inst.stats with n_modified := inst.stats.n_modified + 1 } },
             { hints_left := inst.count, last_modification := now },
             CCRAction.modified)
          else (inst, s, CCRAction.modSkipped)
        else (inst, s, CCRAction.modSkipped)
      | none => (inst, s, CCRAction.modNoSql)
    else if s.hints_left > 0 then
      ({ inst with stats :=
          { inst.stats with n_add_count := inst.stats.n_add_count + 1 } },
       { s with hints_left := s.hints_left - 1 },
       CCRAction.hintByCount)
    else if now - s.last_modification < inst.time then
      ({ inst with stats :=
          { inst.stats with n_add_time := inst.stats.n_add_time + 1 } },
       s, CCRAction.hintByTime)
    else (inst, s, CCRAction.pass)
  else (inst, s, CCRAction.notSql)

/-- Folding ccrRouteQuery over a list of (arrival time, request) pairs. -/
def ccrRun (inst0 : CCR_INSTANCE) (s0 : CCR_SESSION)
    (qs : List (Int × CCRQuery)) : CCR_INSTANCE × CCR_SESSION :=
  qs.foldl (fun a nq =>
    let r := ccrRouteQuery a.1 a.2 nq.1 nq.2
    (r.1, r.2.1)) (inst0, s0)

/-- The concrete hysteresis instance with count 2 and time 60 (the default)
and no patterns, as produced by createInstance. -/
def ccrInstCount2 : CCR_INSTANCE :=
  { matchStr := none, nomatchStr := none, time := 60, count := 2,
    stats := ⟨0, 0, 0⟩, re := none, nore := none }

/-- A data-modifying request (classified as an update) as ccrfilter sees it. -/
def ccrWriteQuery : CCRQuery :=
  { isSQL := true, op := QUERY_OP_UPDATE, sql := some "update t set a = 1" }

/-- A read request (classified as a select) as ccrfilter sees it. -/
def ccrReadQuery : CCRQuery :=
  { isSQL := true, op := QUERY_OP_SELECT, sql := some "select a from t" }

/-- Helper for claim C9: one routeQuery call keeps the configured count and a
nonnegative hint counter nonnegative. -/
theorem ccrRouteQuery_hints_nonneg (inst : CCR_INSTANCE) (s : CCR_SESSION)
    (now : Int) (q : CCRQuery) (hc : 0 ≤ inst.count) (hs : 0 ≤ s.hints_left) :
    0 ≤ (ccrRouteQuery inst s now q).1.count ∧
      0 ≤ (ccrRouteQuery inst s now q).2.1.hints_left := by
  unfold ccrRouteQuery
  rcases q with ⟨isSQL, op, sql⟩
  rcases sql with _ | sql <;> simp only [] <;>
    repeat' split
  all_goals simp_all
  all_goals omega

/-- Helper for claim C9: the invariant extended over any call sequence. -/
theorem ccrRun_hints_nonneg (qs : List (Int × CCRQuery)) :
    ∀ (inst : CCR_INSTANCE) (s : CCR_SESSION),
      0 ≤ inst.count → 0 ≤ s.hints_left →
      0 ≤ (ccrRun inst s qs).1.count ∧ 0 ≤ (ccrRun inst s qs).2.hints_left := by
  induction qs with
  | nil => intro inst s hc hs; exact ⟨hc, hs⟩
  | cons nq rest ih =>
    intro inst s hc hs
    have h := ccrRouteQuery_hints_nonneg inst s nq.1 nq.2 hc hs
    simpa [ccrRun, List.foldl_cons] using
      ih (ccrRouteQuery inst s nq.1 nq.2).1 (ccrRouteQuery inst s nq.1 nq.2).2.1 h.1 h.2

/-- Claim C9: for every hysteresis session created with a configured count
that is at least 0, hints_left is never negative at any point of any
sequence of routeQuery calls: it starts at 0 (ccrNewSession), is only reset
to the configured count, and is only decremented when strictly positive. -/
theorem ccr_hints_left_never_negative (inst : CCR_INSTANCE)
    (qs : List (Int × CCRQuery)) (hc : 0 ≤ inst.count) :
    0 ≤ (ccrRun inst ccrNewSession qs).2.hints_left :=
  (ccrRun_hints_nonneg qs inst ccrNewSession hc (by simp [ccrNewSession])).2

/-- Witness for claim C9 at a concrete instance and call sequence. -/
theorem ccr_hints_left_never_negative_witness :
    0 ≤ ccrInstCount2.count ∧
      0 ≤ (ccrRun ccrInstCount2 ccrNewSession
            [(0, ccrWriteQuery), (1, ccrReadQuery), (2, ccrReadQuery),
             (3, ccrReadQuery)]).2.hints_left :=
  ⟨by decide, ccr_hints_left_never_negative ccrInstCount2
    [(0, ccrWriteQuery), (1, ccrReadQuery), (2, ccrReadQuery),
     (3, ccrReadQuery)] (by decide)⟩

/-- Claim C3: evaluation of ccrfilter at a statement whose classified
operation is QUERY_OP_UNDEFINED.  createInstance with count=2 yields
ccrInstCount2, and routeQuery on a fresh session then takes the
read/hint-attachment branch (here: plain pass-through, since no hints are
pending and the time window is closed), leaving hints_left and
last_modification untouched — although the comment above ccrfilter.c line
305 says an unknown query type is to be treated as data-modifying, which
would reset hints_left to 2 and last_modification to 1000. -/
theorem ccr_undefined_op_bypasses_modification_rule :
    ccrCreateInstance (fun _ _ => none) (fun _ => false) []
        [⟨"count", "2"⟩] = some ccrInstCount2 ∧
      ccrRouteQuery ccrInstCount2 ccrNewSession 1000
          { isSQL := true, op := QUERY_OP_UNDEFINED, sql := some "call mystery()" } =
        (ccrInstCount2, ccrNewSession, CCRAction.pass) :=
  ⟨rfl, rfl⟩

/-- Claim C5: with count=2 and time=60 and no patterns configured, a write
resets hints_left to 2 and stamps last_modification; the next two reads are
each hinted by the count rule with hints_left decremented, reaching 0, and a
third read within 60 seconds of the write is hinted by the time rule with no
decrement. -/
theorem ccr_count2_time60_hysteresis (t0 t1 t2 t3 : Int) (h : t3 - t0 < 60) :
    (ccrRouteQuery ccrInstCount2 ccrNewSession t0 ccrWriteQuery).2.1 =
      { hints_left := 2, last_modification := t0 } ∧
    (ccrRouteQuery ccrInstCount2
        { hints_left := 2, last_modification := t0 } t1 ccrReadQuery).2 =
      ({ hints_left := 1, last_modification := t0 }, CCRAction.hintByCount) ∧
    (ccrRouteQuery ccrInstCount2
        { hints_left := 1, last_modification := t0 } t2 ccrReadQuery).2 =
      ({ hints_left := 0, last_modification := t0 }, CCRAction.hintByCount) ∧
    (ccrRouteQuery ccrInstCount2
        { hints_left := 0, last_modification := t0 } t3 ccrReadQuery).2 =
      ({ hints_left := 0, last_modification := t0 }, CCRAction.hintByTime) := by
  refine ⟨rfl, rfl, rfl, ?_⟩
  simp [ccrRouteQuery, ccrReadQuery, ccrInstCount2, ccrNotSimpleSelect,
    QUERY_OP_SELECT, h]

/-- Witness for claim C5 with the write at time 0 and the reads at times
1, 2 and 3. -/
theorem ccr_count2_time60_hysteresis_witness :
    ((3 : Int) - 0 < 60) ∧
    ((ccrRouteQuery ccrInstCount2 ccrNewSession 0 ccrWriteQuery).2.1 =
      { hints_left := 2, last_modification := 0 } ∧
    (ccrRouteQuery ccrInstCount2
        { hints_left := 2, last_modification := 0 } 1 ccrReadQuery).2 =
      ({ hints_left := 1, last_modification := 0 }, CCRAction.hintByCount) ∧
    (ccrRouteQuery ccrInstCount2
        { hints_left := 1, last_modification := 0 } 2 ccrReadQuery).2 =
      ({ hints_left := 0, last_modification := 0 }, CCRAction.hintByCount) ∧
    (ccrRouteQuery ccrInstCount2
        { hints_left := 0, last_modification := 0 } 3 ccrReadQuery).2 =
      ({ hints_left := 0, last_modification := 0 }, CCRAction.hintByTime)) :=
  ⟨by decide, ccr_count2_time60_hysteresis 0 1 2 3 (by decide)⟩

/-! ## qlafilter.c — the query logger -/

/-- QLA_INSTANCE (qlafilter.c lines 96-106).  matchStr and nomatchStr model
the match and nomatch pattern-text fields; re and nore are the compiled
matchers, present exactly when the corresponding text survived construction
(qlafilter frees the text and keeps error when regcomp fails). -/
structure QLA_INSTANCE where
  sessions : Int
  filebase : String
  source : Option String
  userName : Option String
  matchStr : Option String
  re : Option (String → Bool)
  nomatchStr : Option String
  nore : Option (String → Bool)

/-- Intermediate state of the qlafilter createInstance parameter loop
together with the allocation ledger: lost collects duplicated strings whose
owning pointer was overwritten by a repeated parameter and which can never
be freed again. -/
structure QlaBuild where
  matchStr : Option String
  nomatchStr : Option String
  source : Option String
  userName : Option String
  filebase : Option String
  error : Bool
  lost : List String
deriving DecidableEq

/-- Initial accumulator of the qlafilter parameter loop. -/
def qlaBuild0 : QlaBuild :=
  { matchStr := none, nomatchStr := none, source := none, userName := none,
    filebase := none, error := false, lost := [] }

/-- One iteration of the qlafilter createInstance parameter loop
(qlafilter.c lines 151-179).  Every recognized parameter duplicates its
value with MXS_STRDUP_A into the matching field; an already present value is
overwritten, so its string moves to the lost ledger.  A parameter that is
neither recognized nor standard sets the error flag. -/
def qlaParamStep (filterStandardParameter : String → Bool)
    (a : QlaBuild) (p : FilterParam) : QlaBuild :=
  if p.name = "match" then
    { a with matchStr := some p.value, lost := a.lost ++ a.matchStr.toList }
  else if p.name = "exclude" then
    { a with nomatchStr := some p.value, lost := a.lost ++ a.nomatchStr.toList }
  else if p.name = "source" then
    { a with source := some p.value, lost := a.lost ++ a.source.toList }
  else if p.name = "user" then
    { a with userName := some p.value, lost := a.lost ++ a.userName.toList }
  else if p.name = "filebase" then
    { a with filebase := some p.value, lost := a.lost ++ a.filebase.toList }
  else if filterStandardParameter p.name then a
  else { a with error := true }

/-- One iteration of the qlafilter/topfilter option loop (qlafilter.c lines
186-206): the accumulator is the cflags value plus the error flag, and an
unsupported option sets the error flag. -/
def qlaOptionStep (a : CFlags × Bool) (opt : String) : CFlags × Bool :=
  if strcaseEq opt "ignorecase" then ({ a.1 with icase := true }, a.2)
  else if strcaseEq opt "case" then ({ a.1 with icase := false }, a.2)
  else if strcaseEq opt "extended" then ({ a.1 with extended := true }, a.2)
  else (a.1, true)

/-- The cflags value the option loop produces (REG_ICASE set initially). -/
def qlaCflags (options : List String) : CFlags :=
  (options.foldl qlaOptionStep ({ icase := true, extended := false }, false)).1

/-- Whether the option loop reported an unsupported option. -/
def qlaOptionError (options : List String) : Bool :=
  (options.foldl qlaOptionStep ({ icase := true, extended := false }, false)).2

/-- Result of qlafilter createInstance: the instance (none on failure) plus
the strings that remain allocated but unreachable. -/
structure QlaCreateResult where
  inst : Option QLA_INSTANCE
  lost : List String

/-- createInstance of qlafilter.c (lines 135-258).  MXS_MALLOC is modelled
as succeeding.  After the parameter and option loops it requires filebase,
compiles the two patterns (releasing the pattern text at once when regcomp
fails), and on any error releases every still-held string and compiled
pattern and returns no instance. -/
def qlaCreateInstance (regcomp : RegcompOracle)
    (filterStandardParameter : String → Bool)
    (options : List String) (params : List FilterParam) : QlaCreateResult :=
  let a := params.foldl (qlaParamStep filterStandardParameter) qlaBuild0
  let cflags := qlaCflags options
  let err1 := a.error || qlaOptionError options || a.filebase.isNone
  let c1 : Option String × Option (String → Bool) × Bool :=
    match a.matchStr with
    | some m =>
      match regcomp cflags m with
      | some f => (some m, some f, false)
      | none => (none, none, true)
    | none => (none, none, false)
  let c2 : Option String × Option (String → Bool) × Bool :=
    match a.nomatchStr with
    | some m =>
      match regcomp cflags m with
      | some f => (some m, some f, false)
      | none => (none, none, true)
    | none => (none, none, false)
  if err1 || c1.2.2 || c2.2.2 then
    { inst := none, lost := a.lost }
  else
    { inst := some
        { sessions := 0,
          filebase := a.filebase.getD "",  -- non-null here: err1 checked isNone
          source := a.source, userName := a.userName,
          matchStr := c1.1, re := c1.2.1,
          nomatchStr := c2.1, nore := c2.2.1 },
      lost := a.lost }

/-- QLA_SESSION (qlafilter.c lines 116-124).  fpOpen records whether the
output FILE handle was opened; log holds the lines written to it so far. -/
structure QLA_SESSION where
  filename : String
  fpOpen : Bool
  active : Bool
  user : String
  remote : String

/-- newSession of qlafilter.c (lines 269-333).  The allocation of the
session and of the file name are modelled as succeeding; openOk tells
whether fopen of the derived file name succeeds.  Returns the session (none
when an active session cannot open its file) and the instance with its
session counter advanced. -/
def qlaNewSession (inst : QLA_INSTANCE) (remote user : String)
    (openOk : Bool) : Option QLA_SESSION × QLA_INSTANCE :=
  let active :=
    !((inst.source.isSome && decide (remote ≠ inst.source.getD "")) ||
      (inst.userName.isSome && decide (user ≠ inst.userName.getD "")))
  let filename := inst.filebase ++ "." ++ toString inst.sessions
  let inst' := { inst with sessions := inst.sessions + 1 }
  if active then
    if openOk then
      (some { filename := filename, fpOpen := true, active := true,
              user := user, remote := remote }, inst')
    else (none, inst')
  else
    (some { filename := filename, fpOpen := false, active := false,
            user := user, remote := remote }, inst')

/-- Modelled from the spec: squeeze_whitespace from the shared utility
library, which is not under src/; the spec describes its effect as
whitespace normalization.  Every maximal run of whitespace characters is
replaced by one space; the flag says whether the previous character was
whitespace. -/
def squeezeGo : Bool → List Char → List Char
  | _, [] => []
  | prevWs, c :: rest =>
    if c.isWhitespace then
      if prevWs then squeezeGo true rest else ' ' :: squeezeGo true rest
    else c :: squeezeGo false rest

/-- Modelled from the spec: squeeze_whitespace on a string (see squeezeGo). -/
def squeeze_whitespace (s : String) : String := ⟨squeezeGo false s.data⟩

/-- Modelled from the spec: trim from the shared utility library, which is
not under src/; strips leading and trailing whitespace. -/
def trimWs (s : String) : String :=
  ⟨((s.data.dropWhile Char.isWhitespace).reverse.dropWhile
      Char.isWhitespace).reverse⟩

/-- One incoming request as qlafilter sees it: the SQL text that
modutil_get_SQL extracts from the buffer (none when the buffer holds no SQL)
and the strftime-rendered local timestamp the logger would print. -/
structure QLAQuery where
  sql : Option String
  timestamp : String
deriving DecidableEq

/-- routeQuery of qlafilter.c (lines 396-432): returns the line appended to
the session file (none when nothing is logged) and the forwarded message,
which is always the incoming queue itself. -/
def qlaRouteQuery (inst : QLA_INSTANCE) (s : QLA_SESSION) (q : QLAQuery) :
    Option String × QLAQuery :=
  if s.active then
    match q.sql with
    | some ptr =>
      if (inst.matchStr.isNone || regexecMatches inst.re ptr) &&
         (inst.nomatchStr.isNone || !regexecMatches inst.nore ptr) then
        (some (q.timestamp ++ "," ++ s.user ++ "@" ++ s.remote ++ "," ++
               trimWs (squeeze_whitespace ptr) ++ "\n"), q)
      else (none, q)
    | none => (none, q)
  else (none, q)

/-! ## topfilter.c — the top-N latency tracker -/

/-- A struct timeval: seconds and microseconds. -/
structure Timeval where
  tv_sec : Int
  tv_usec : Int
deriving DecidableEq

/-- The timersub macro from sys/time.h: componentwise difference with a
borrow that keeps tv_usec in range. -/
def timersub (a b : Timeval) : Timeval :=
  let sec := a.tv_sec - b.tv_sec
  let usec := a.tv_usec - b.tv_usec
  if usec < 0 then ⟨sec - 1, usec + 1000000⟩ else ⟨sec, usec⟩

/-- The timeradd macro from sys/time.h: componentwise sum with a carry that
keeps tv_usec in range. -/
def timeradd (a b : Timeval) : Timeval :=
  let sec := a.tv_sec + b.tv_sec
  let usec := a.tv_usec + b.tv_usec
  if usec ≥ 1000000 then ⟨sec + 1, usec - 1000000⟩ else ⟨sec, usec⟩

/-- One ranked slot (struct topnq): a duration and the statement text; the
sql pointer is NULL while the slot is unoccupied. -/
structure TOPNQ where
  duration : Timeval
  sql : Option String
deriving DecidableEq

/-- cmp_topn of topfilter.c (lines 521-532): compares two slots for qsort so
that longer durations come first (seconds first, microseconds on a tie). -/
def cmp_topn (a b : TOPNQ) : Int :=
  if b.duration.tv_sec == a.duration.tv_sec then
    b.duration.tv_usec - a.duration.tv_usec
  else b.duration.tv_sec - a.duration.tv_sec

/-- The ordering a qsort by cmp_topn establishes: a may precede b when
cmp_topn does not report a as strictly later than b. -/
def topnBefore (a b : TOPNQ) : Prop := cmp_topn a b ≤ 0

instance : DecidableRel topnBefore := fun a b => by
  unfold topnBefore; infer_instance

instance : IsTotal TOPNQ topnBefore := by
  constructor
  intro a b
  unfold topnBefore cmp_topn
  by_cases h : b.duration.tv_sec = a.duration.tv_sec <;> simp [h] <;> omega

instance : IsTrans TOPNQ topnBefore := by
  constructor
  intro a b c hab hbc
  unfold topnBefore cmp_topn at *
  by_cases h1 : b.duration.tv_sec = a.duration.tv_sec <;>
    by_cases h2 : c.duration.tv_sec = b.duration.tv_sec <;>
      simp [h1, h2] at hab hbc <;>
        by_cases h3 : c.duration.tv_sec = a.duration.tv_sec <;>
          simp [h3] <;> omega

/-- TOPN_INSTANCE (topfilter.c lines 92-103); see QLA_INSTANCE for the
pattern-field naming. -/
structure TOPN_INSTANCE where
  sessions : Int
  topN : Int
  filebase : String
  source : Option String
  user : Option String
  matchStr : Option String
  re : Option (String → Bool)
  exclude : Option String
  exre : Option (String → Bool)

/-- TOPN_SESSION (topfilter.c lines 122-138).  top is the fixed array of
topN ranked slots; current is the pending statement text; start its request
time; disconnect is supplied to closeSession directly. -/
structure TOPN_SESSION where
  active : Bool
  clientHost : Option String
  userName : Option String
  filename : String
  start : Timeval
  current : Option String
  top : List TOPNQ
  n_statements : Int
  total : Timeval
  connect : Timeval

/-- newSession of topfilter.c (lines 286-352).  Allocation is modelled as
succeeding.  Note the file name is written twice: once from the counter
value before atomic_add (line 303) and once after it (line 346); the second
write is the one that survives. -/
def topnNewSession (inst : TOPN_INSTANCE) (remote user : Option String)
    (connect : Timeval) : TOPN_SESSION × TOPN_INSTANCE :=
  let filename := inst.filebase ++ "." ++ toString inst.sessions
  let inst' := { inst with sessions := inst.sessions + 1 }
  let top := List.replicate inst.topN.toNat ⟨⟨0, 0⟩, none⟩
  let active :=
    !((inst.source.isSome && remote.isSome &&
        decide (remote.getD "" ≠ inst.source.getD "")) ||
      (inst.user.isSome && user.isSome &&
        decide (user.getD "" ≠ inst.user.getD "")))
  let _ := filename  -- the first sprintf result is dead
  let filename := inst.filebase ++ "." ++ toString inst'.sessions
  ({ active := active, clientHost := remote, userName := user,
     filename := filename, start := ⟨0, 0⟩, current := none, top := top,
     n_statements := 0, total := ⟨0, 0⟩, connect := connect }, inst')

/-- One incoming request as topfilter sees it: the extracted SQL text. -/
structure TopnQuery where
  sql : Option String
deriving DecidableEq

/-- routeQuery of topfilter.c (lines 482-519): an active session whose
extracted SQL passes the match/exclude patterns counts the statement and
records it as pending with the current time; the query is then forwarded
unchanged in every case (second component). -/
def topnRouteQuery (inst : TOPN_INSTANCE) (s : TOPN_SESSION) (now : Timeval)
    (q : TopnQuery) : TOPN_SESSION × TopnQuery :=
  if s.active then
    match q.sql with
    | some ptr =>
      if (inst.matchStr.isNone || regexecMatches inst.re ptr) &&
         (inst.exclude.isNone || !regexecMatches inst.exre ptr) then
        ({ s with n_statements := s.n_statements + 1, start := now,
                  current := some ptr }, q)
      else (s, q)
    | none => (s, q)
  else (s, q)

/-- The first loop of clientReply (topfilter.c lines 550-559): put the pair
into the first slot whose sql is NULL, if any. -/
def insertFirstFree : List TOPNQ → Timeval → String → Option (List TOPNQ)
  | [], _, _ => none
  | e :: rest, d, c =>
    if e.sql.isNone then some ({ duration := d, sql := some c } :: rest)
    else (insertFirstFree rest d c).map (e :: ·)

/-- clientReply of topfilter.c (lines 534-586).  now is the gettimeofday
value; the reply buffer itself is forwarded upstream unchanged and is not
modelled.  qsort over the topN slots is modelled as sorting by the cmp_topn
order. -/
def topnClientReply (inst : TOPN_INSTANCE) (s : TOPN_SESSION)
    (now : Timeval) : TOPN_SESSION :=
  match s.current with
  | none => s
  | some cur =>
    let diff := timersub now s.start
    let total := timeradd s.total diff
    match insertFirstFree s.top diff cur with
    | some top1 =>
      { s with total := total, current := none,
               top := List.insertionSort topnBefore top1 }
    | none =>
      match s.top.getLast? with
      | some last =>
        if diff.tv_sec > last.duration.tv_sec ∨
           (diff.tv_sec = last.duration.tv_sec ∧
            diff.tv_usec > last.duration.tv_usec) then
          { s with total := total, current := none,
                   top := List.insertionSort topnBefore
                     (s.top.dropLast ++ [{ duration := diff, sql := some cur }]) }
        else { s with total := total, current := none }
      | none =>
        -- topN = 0: the source would read top[-1]; unreachable when topN ≥ 1
        { s with total := total, current := none }

/-- One call a topfilter session can receive. -/
inductive TopnCall where
  | route (now : Timeval) (q : TopnQuery)
  | reply (now : Timeval)

/-- Folding a call sequence over a topfilter session. -/
def topnRun (inst : TOPN_INSTANCE) (s0 : TOPN_SESSION)
    (calls : List TopnCall) : TOPN_SESSION :=
  calls.foldl (fun s c =>
    match c with
    | TopnCall.route now q => (topnRouteQuery inst s now q).1
    | TopnCall.reply now => topnClientReply inst s now) s0

/-- Intermediate state of the topfilter createInstance parameter loop with
the allocation ledger (see QlaBuild). -/
structure TopnBuild where
  topN : Int
  filebase : Option String
  matchStr : Option String
  exclude : Option String
  source : Option String
  user : Option String
  error : Bool
  lost : List String
deriving DecidableEq

/-- Initial accumulator of the topfilter parameter loop: topN defaults to 10. -/
def topnBuild0 : TopnBuild :=
  { topN := 10, filebase := none, matchStr := none, exclude := none,
    source := none, user := none, error := false, lost := [] }

/-- One iteration of the topfilter createInstance parameter loop
(topfilter.c lines 164-196).  count is parsed with atoi (no allocation);
the five string parameters are duplicated into their fields, with an
overwritten earlier value moving to the lost ledger; a parameter that is
neither recognized nor standard sets the error flag. -/
def topnParamStep (filterStandardParameter : String → Bool)
    (a : TopnBuild) (p : FilterParam) : TopnBuild :=
  if p.name = "count" then { a with topN := atoi p.value }
  else if p.name = "filebase" then
    { a with filebase := some p.value, lost := a.lost ++ a.filebase.toList }
  else if p.name = "match" then
    { a with matchStr := some p.value, lost := a.lost ++ a.matchStr.toList }
  else if p.name = "exclude" then
    { a with exclude := some p.value, lost := a.lost ++ a.exclude.toList }
  else if p.name = "source" then
    { a with source := some p.value, lost := a.lost ++ a.source.toList }
  else if p.name = "user" then
    { a with user := some p.value, lost := a.lost ++ a.user.toList }
  else if filterStandardParameter p.name then a
  else { a with error := true }

/-- Result of topfilter createInstance (see QlaCreateResult). -/
structure TopnCreateResult where
  inst : Option TOPN_INSTANCE
  lost : List String

/-- createInstance of topfilter.c (lines 149-275).  Same structure as the
qlafilter one: the option loop (identical code, modelled by qlaOptionStep)
may set the error flag, filebase is required, a pattern whose compilation
fails is released at once, and on any error all held strings and compiled
patterns are released and no instance is returned. -/
def topnCreateInstance (regcomp : RegcompOracle)
    (filterStandardParameter : String → Bool)
    (options : List String) (params : List FilterParam) : TopnCreateResult :=
  let a := params.foldl (topnParamStep filterStandardParameter) topnBuild0
  let cflags := qlaCflags options
  let err1 := a.error || qlaOptionError options || a.filebase.isNone
  let c1 : Option String × Option (String → Bool) × Bool :=
    match a.matchStr with
    | some m =>
      match regcomp cflags m with
      | some f => (some m, some f, false)
      | none => (none, none, true)
    | none => (none, none, false)
  let c2 : Option String × Option (String → Bool) × Bool :=
    match a.exclude with
    | some m =>
      match regcomp cflags m with
      | some f => (some m, some f, false)
      | none => (none, none, true)
    | none => (none, none, false)
  if err1 || c1.2.2 || c2.2.2 then
    { inst := none, lost := a.lost }
  else
    { inst := some
        { sessions := 0, topN := a.topN,
          filebase := a.filebase.getD "",  -- non-null here: err1 checked isNone
          source := a.source, user := a.user,
          matchStr := c1.1, re := c1.2.1,
          exclude := c2.1, exre := c2.2.1 },
      lost := a.lost }

/-- The numbers printed by the end-of-session report of topfilter
closeSession (topfilter.c lines 362-422): the substituted statement count,
the total execution time, the average execution time in seconds (a C double,
modelled as a rational) and the ranked entries that are printed. -/
structure TopnReport where
  statements : Int
  total : Timeval
  avgSeconds : Rat
  printedEntries : List TOPNQ

/-- closeSession of topfilter.c (lines 362-422), reduced to the report
numbers it writes.  The statement count used as divisor is replaced by 1
when no statement was counted; the average divides the total expressed in
milliseconds (integer arithmetic, as in the source) by 1000 times that
count. -/
def topnCloseReport (s : TOPN_SESSION) : TopnReport :=
  let statements : Int := if s.n_statements ≠ 0 then s.n_statements else 1
  { statements := statements,
    total := s.total,
    avgSeconds :=
      ((s.total.tv_sec * 1000 + s.total.tv_usec / 1000 : Int) : Rat) /
        ((1000 * statements : Int) : Rat),
    printedEntries := s.top.filter (fun e => e.sql.isSome) }

/-! ## Construction-failure lemmas (claim C1) -/

/-- One qlafilter parameter-loop step never clears the error flag. -/
theorem qlaParamStep_error_mono (std : String → Bool) (a : QlaBuild)
    (p : FilterParam) (h : a.error = true) :
    (qlaParamStep std a p).error = true := by
  unfold qlaParamStep
  split_ifs <;> simpa using h

/-- The qlafilter parameter loop never clears the error flag. -/
theorem qla_foldl_error_mono (std : String → Bool) (params : List FilterParam) :
    ∀ a : QlaBuild, a.error = true →
      (params.foldl (qlaParamStep std) a).error = true := by
  induction params with
  | nil => intro a h; simpa using h
  | cons p rest ih =>
    intro a h
    rw [List.foldl_cons]
    exact ih _ (qlaParamStep_error_mono std a p h)

/-- A parameter that is neither recognized nor standard makes the qlafilter
parameter loop record an error. -/
theorem qla_foldl_error_of_unrecognized (std : String → Bool)
    (params : List FilterParam) :
    ∀ (a : QlaBuild) (p : FilterParam), p ∈ params →
      p.name ≠ "match" → p.name ≠ "exclude" → p.name ≠ "source" →
      p.name ≠ "user" → p.name ≠ "filebase" → std p.name = false →
      (params.foldl (qlaParamStep std) a).error = true := by
  induction params with
  | nil => intro a p hp _ _ _ _ _ _; simp at hp
  | cons q rest ih =>
    intro a p hp h1 h2 h3 h4 h5 h6
    rw [List.foldl_cons]
    rcases List.mem_cons.mp hp with hq | hq
    · subst hq
      apply qla_foldl_error_mono
      unfold qlaParamStep
      rw [if_neg h1, if_neg h2, if_neg h3, if_neg h4, if_neg h5,
        if_neg (by simp [h6])]
    · exact ih _ p hq h1 h2 h3 h4 h5 h6

/-- Without a filebase parameter the filebase field stays empty. -/
theorem qla_foldl_filebase_none (std : String → Bool)
    (params : List FilterParam) :
    ∀ a : QlaBuild, a.filebase = none →
      (∀ p ∈ params, p.name ≠ "filebase") →
      (params.foldl (qlaParamStep std) a).filebase = none := by
  induction params with
  | nil => intro a h _; simpa using h
  | cons q rest ih =>
    intro a h hno
    rw [List.foldl_cons]
    refine ih _ ?_ (fun p hp => hno p (List.mem_cons_of_mem q hp))
    have hq := hno q (List.mem_cons_self q rest)
    unfold qlaParamStep
    split_ifs <;> simp_all

/-- A loop segment that never mentions the match parameter preserves the
match field. -/
theorem qla_foldl_match_stable (std : String → Bool)
    (params : List FilterParam) :
    ∀ a : QlaBuild, (∀ p ∈ params, p.name ≠ "match") →
      (params.foldl (qlaParamStep std) a).matchStr = a.matchStr := by
  induction params with
  | nil => intro a _; rfl
  | cons q rest ih =>
    intro a hno
    rw [List.foldl_cons, ih _ (fun p hp => hno p (List.mem_cons_of_mem q hp))]
    have hq := hno q (List.mem_cons_self q rest)
    unfold qlaParamStep
    split_ifs <;> simp_all

/-- A loop segment that never mentions the exclude parameter preserves the
nomatch field. -/
theorem qla_foldl_exclude_stable (std : String → Bool)
    (params : List FilterParam) :
    ∀ a : QlaBuild, (∀ p ∈ params, p.name ≠ "exclude") →
      (params.foldl (qlaParamStep std) a).nomatchStr = a.nomatchStr := by
  induction params with
  | nil => intro a _; rfl
  | cons q rest ih =>
    intro a hno
    rw [List.foldl_cons, ih _ (fun p hp => hno p (List.mem_cons_of_mem q hp))]
    have hq := hno q (List.mem_cons_self q rest)
    unfold qlaParamStep
    split_ifs <;> simp_all

/-- With pairwise distinct parameter names, a supplied match parameter is
exactly what the loop leaves in the match field. -/
theorem qla_foldl_match_value (std : String → Bool)
    (params : List FilterParam) :
    ∀ (a : QlaBuild) (p : FilterParam),
      (params.map FilterParam.name).Nodup → p ∈ params → p.name = "match" →
      (params.foldl (qlaParamStep std) a).matchStr = some p.value := by
  induction params with
  | nil => intro a p _ hp; simp at hp
  | cons q rest ih =>
    intro a p hnd hp hname
    rw [List.map_cons, List.nodup_cons] at hnd
    rw [List.foldl_cons]
    rcases List.mem_cons.mp hp with hq | hq
    · subst hq
      have hrest : ∀ x ∈ rest, x.name ≠ "match" := by
        intro x hx hx'
        apply hnd.1
        rw [hname, ← hx']
        exact List.mem_map_of_mem FilterParam.name hx
      rw [qla_foldl_match_stable std rest _ hrest]
      unfold qlaParamStep
      rw [if_pos hname]
    · exact ih _ p hnd.2 hq hname

/-- With pairwise distinct parameter names, a supplied exclude parameter is
exactly what the loop leaves in the nomatch field. -/
theorem qla_foldl_exclude_value (std : String → Bool)
    (params : List FilterParam) :
    ∀ (a : QlaBuild) (p : FilterParam),
      (params.map FilterParam.name).Nodup → p ∈ params → p.name = "exclude" →
      (params.foldl (qlaParamStep std) a).nomatchStr = some p.value := by
  induction params with
  | nil => intro a p _ hp; simp at hp
  | cons q rest ih =>
    intro a p hnd hp hname
    rw [List.map_cons, List.nodup_cons] at hnd
    rw [List.foldl_cons]
    rcases List.mem_cons.mp hp with hq | hq
    · subst hq
      have hrest : ∀ x ∈ rest, x.name ≠ "exclude" := by
        intro x hx hx'
        apply hnd.1
        rw [hname, ← hx']
        exact List.mem_map_of_mem FilterParam.name hx
      rw [qla_foldl_exclude_stable std rest _ hrest]
      unfold qlaParamStep
      have hne : p.name ≠ "match" := by rw [hname]; decide
      rw [if_neg hne, if_pos hname]
    · exact ih _ p hnd.2 hq hname

/-- With pairwise distinct parameter names the qlafilter parameter loop
never overwrites a string field, so nothing is lost: every field named by a
still-pending parameter must currently be empty, and that property is kept
step by step. -/
theorem qla_foldl_lost_nil (std : String → Bool) (params : List FilterParam) :
    ∀ a : QlaBuild, (params.map FilterParam.name).Nodup → a.lost = [] →
      ("match" ∈ params.map FilterParam.name → a.matchStr = none) →
      ("exclude" ∈ params.map FilterParam.name → a.nomatchStr = none) →
      ("source" ∈ params.map FilterParam.name → a.source = none) →
      ("user" ∈ params.map FilterParam.name → a.userName = none) →
      ("filebase" ∈ params.map FilterParam.name → a.filebase = none) →
      (params.foldl (qlaParamStep std) a).lost = [] := by
  induction params with
  | nil => intro a _ hl _ _ _ _ _; simpa using hl
  | cons q rest ih =>
    intro a hnd hl hm hx hs hu hf
    rw [List.map_cons, List.nodup_cons] at hnd
    rw [List.foldl_cons]
    have hmemq : q.name ∈ (q :: rest).map FilterParam.name := by
      rw [List.map_cons]; exact List.mem_cons_self q.name _
    have hmemr : ∀ n : String, n ∈ rest.map FilterParam.name →
        n ∈ (q :: rest).map FilterParam.name := by
      intro n hn; rw [List.map_cons]; exact List.mem_cons_of_mem _ hn
    refine ih (qlaParamStep std a q) hnd.2 ?_ ?_ ?_ ?_ ?_ ?_ <;>
      unfold qlaParamStep <;> split_ifs with h1 h2 h3 h4 h5 h6
    -- goal 1: the lost ledger stays empty
    · have h0 : a.matchStr = none := hm (h1 ▸ hmemq)
      simp [h0, hl]
    · have h0 : a.nomatchStr = none := hx (h2 ▸ hmemq)
      simp [h0, hl]
    · have h0 : a.source = none := hs (h3 ▸ hmemq)
      simp [h0, hl]
    · have h0 : a.userName = none := hu (h4 ▸ hmemq)
      simp [h0, hl]
    · have h0 : a.filebase = none := hf (h5 ▸ hmemq)
      simp [h0, hl]
    · simpa using hl
    · simpa using hl
    -- goal 2: the match field is still empty if a match parameter is pending
    all_goals intro hmem
    · exact absurd (h1 ▸ hmem) hnd.1
    · simpa using hm (hmemr _ hmem)
    · simpa using hm (hmemr _ hmem)
    · simpa using hm (hmemr _ hmem)
    · simpa using hm (hmemr _ hmem)
    · simpa using hm (hmemr _ hmem)
    · simpa using hm (hmemr _ hmem)
    -- goal 3: the nomatch field
    · simpa using hx (hmemr _ hmem)
    · exact absurd (h2 ▸ hmem) hnd.1
    · simpa using hx (hmemr _ hmem)
    · simpa using hx (hmemr _ hmem)
    · simpa using hx (hmemr _ hmem)
    · simpa using hx (hmemr _ hmem)
    · simpa using hx (hmemr _ hmem)
    -- goal 4: the source field
    · simpa using hs (hmemr _ hmem)
    · simpa using hs (hmemr _ hmem)
    · exact absurd (h3 ▸ hmem) hnd.1
    · simpa using hs (hmemr _ hmem)
    · simpa using hs (hmemr _ hmem)
    · simpa using hs (hmemr _ hmem)
    · simpa using hs (hmemr _ hmem)
    -- goal 5: the user field
    · simpa using hu (hmemr _ hmem)
    · simpa using hu (hmemr _ hmem)
    · simpa using hu (hmemr _ hmem)
    · exact absurd (h4 ▸ hmem) hnd.1
    · simpa using hu (hmemr _ hmem)
    · simpa using hu (hmemr _ hmem)
    · simpa using hu (hmemr _ hmem)
    -- goal 6: the filebase field
    · simpa using hf (hmemr _ hmem)
    · simpa using hf (hmemr _ hmem)
    · simpa using hf (hmemr _ hmem)
    · simpa using hf (hmemr _ hmem)
    · exact absurd (h5 ▸ hmem) hnd.1
    · simpa using hf (hmemr _ hmem)
    · simpa using hf (hmemr _ hmem)

/-- One topfilter parameter-loop step never clears the error flag. -/
theorem topnParamStep_error_mono (std : String → Bool) (a : TopnBuild)
    (p : FilterParam) (h : a.error = true) :
    (topnParamStep std a p).error = true := by
  unfold topnParamStep
  split_ifs <;> simpa using h

/-- The topfilter parameter loop never clears the error flag. -/
theorem topn_foldl_error_mono (std : String → Bool) (params : List FilterParam) :
    ∀ a : TopnBuild, a.error = true →
      (params.foldl (topnParamStep std) a).error = true := by
  induction params with
  | nil => intro a h; simpa using h
  | cons p rest ih =>
    intro a h
    rw [List.foldl_cons]
    exact ih _ (topnParamStep_error_mono std a p h)

/-- A parameter that is neither recognized nor standard makes the topfilter
parameter loop record an error. -/
theorem topn_foldl_error_of_unrecognized (std : String → Bool)
    (params : List FilterParam) :
    ∀ (a : TopnBuild) (p : FilterParam), p ∈ params →
      p.name ≠ "count" → p.name ≠ "filebase" → p.name ≠ "match" →
      p.name ≠ "exclude" → p.name ≠ "source" → p.name ≠ "user" →
      std p.name = false →
      (params.foldl (topnParamStep std) a).error = true := by
  induction params with
  | nil => intro a p hp _ _ _ _ _ _ _; simp at hp
  | cons q rest ih =>
    intro a p hp h1 h2 h3 h4 h5 h6 h7
    rw [List.foldl_cons]
    rcases List.mem_cons.mp hp with hq | hq
    · subst hq
      apply topn_foldl_error_mono
      unfold topnParamStep
      rw [if_neg h1, if_neg h2, if_neg h3, if_neg h4, if_neg h5, if_neg h6,
        if_neg (by simp [h7])]
    · exact ih _ p hq h1 h2 h3 h4 h5 h6 h7

/-- Without a filebase parameter the topfilter filebase field stays empty. -/
theorem topn_foldl_filebase_none (std : String → Bool)
    (params : List FilterParam) :
    ∀ a : TopnBuild, a.filebase = none →
      (∀ p ∈ params, p.name ≠ "filebase") →
      (params.foldl (topnParamStep std) a).filebase = none := by
  induction params with
  | nil => intro a h _; simpa using h
  | cons q rest ih =>
    intro a h hno
    rw [List.foldl_cons]
    refine ih _ ?_ (fun p hp => hno p (List.mem_cons_of_mem q hp))
    have hq := hno q (List.mem_cons_self q rest)
    unfold topnParamStep
    split_ifs <;> simp_all

/-- A loop segment that never mentions the match parameter preserves the
topfilter match field. -/
theorem topn_foldl_match_stable (std : String → Bool)
    (params : List FilterParam) :
    ∀ a : TopnBuild, (∀ p ∈ params, p.name ≠ "match") →
      (params.foldl (topnParamStep std) a).matchStr = a.matchStr := by
  induction params with
  | nil => intro a _; rfl
  | cons q rest ih =>
    intro a hno
    rw [List.foldl_cons, ih _ (fun p hp => hno p (List.mem_cons_of_mem q hp))]
    have hq := hno q (List.mem_cons_self q rest)
    unfold topnParamStep
    split_ifs <;> simp_all

/-- A loop segment that never mentions the exclude parameter preserves the
topfilter exclude field. -/
theorem topn_foldl_exclude_stable (std : String → Bool)
    (params : List FilterParam) :
    ∀ a : TopnBuild, (∀ p ∈ params, p.name ≠ "exclude") →
      (params.foldl (topnParamStep std) a).exclude = a.exclude := by
  induction params with
  | nil => intro a _; rfl
  | cons q rest ih =>
    intro a hno
    rw [List.foldl_cons, ih _ (fun p hp => hno p (List.mem_cons_of_mem q hp))]
    have hq := hno q (List.mem_cons_self q rest)
    unfold topnParamStep
    split_ifs <;> simp_all

/-- With pairwise distinct parameter names, a supplied match parameter is
exactly what the topfilter loop leaves in the match field. -/
theorem topn_foldl_match_value (std : String → Bool)
    (params : List FilterParam) :
    ∀ (a : TopnBuild) (p : FilterParam),
      (params.map FilterParam.name).Nodup → p ∈ params → p.name = "match" →
      (params.foldl (topnParamStep std) a).matchStr = some p.value := by
  induction params with
  | nil => intro a p _ hp; simp at hp
  | cons q rest ih =>
    intro a p hnd hp hname
    rw [List.map_cons, List.nodup_cons] at hnd
    rw [List.foldl_cons]
    rcases List.mem_cons.mp hp with hq | hq
    · subst hq
      have hrest : ∀ x ∈ rest, x.name ≠ "match" := by
        intro x hx hx'
        apply hnd.1
        rw [hname, ← hx']
        exact List.mem_map_of_mem FilterParam.name hx
      rw [topn_foldl_match_stable std rest _ hrest]
      unfold topnParamStep
      have hn1 : p.name ≠ "count" := by rw [hname]; decide
      have hn2 : p.name ≠ "filebase" := by rw [hname]; decide
      rw [if_neg hn1, if_neg hn2, if_pos hname]
    · exact ih _ p hnd.2 hq hname

/-- With pairwise distinct parameter names, a supplied exclude parameter is
exactly what the topfilter loop leaves in the exclude field. -/
theorem topn_foldl_exclude_value (std : String → Bool)
    (params : List FilterParam) :
    ∀ (a : TopnBuild) (p : FilterParam),
      (params.map FilterParam.name).Nodup → p ∈ params → p.name = "exclude" →
      (params.foldl (topnParamStep std) a).exclude = some p.value := by
  induction params with
  | nil => intro a p _ hp; simp at hp
  | cons q rest ih =>
    intro a p hnd hp hname
    rw [List.map_cons, List.nodup_cons] at hnd
    rw [List.foldl_cons]
    rcases List.mem_cons.mp hp with hq | hq
    · subst hq
      have hrest : ∀ x ∈ rest, x.name ≠ "exclude" := by
        intro x hx hx'
        apply hnd.1
        rw [hname, ← hx']
        exact List.mem_map_of_mem FilterParam.name hx
      rw [topn_foldl_exclude_stable std rest _ hrest]
      unfold topnParamStep
      have hn1 : p.name ≠ "count" := by rw [hname]; decide
      have hn2 : p.name ≠ "filebase" := by rw [hname]; decide
      have hn3 : p.name ≠ "match" := by rw [hname]; decide
      rw [if_neg hn1, if_neg hn2, if_neg hn3, if_pos hname]
    · exact ih _ p hnd.2 hq hname

set_option maxHeartbeats 2000000 in
/-- With pairwise distinct parameter names the topfilter parameter loop
never overwrites a string field, so nothing is lost (see qla_foldl_lost_nil). -/
theorem topn_foldl_lost_nil (std : String → Bool) (params : List FilterParam) :
    ∀ a : TopnBuild, (params.map FilterParam.name).Nodup → a.lost = [] →
      ("filebase" ∈ params.map FilterParam.name → a.filebase = none) →
      ("match" ∈ params.map FilterParam.name → a.matchStr = none) →
      ("exclude" ∈ params.map FilterParam.name → a.exclude = none) →
      ("source" ∈ params.map FilterParam.name → a.source = none) →
      ("user" ∈ params.map FilterParam.name → a.user = none) →
      (params.foldl (topnParamStep std) a).lost = [] := by
  induction params with
  | nil => intro a _ hl _ _ _ _ _; simpa using hl
  | cons q rest ih =>
    intro a hnd hl hf hm hx hs hu
    rw [List.map_cons, List.nodup_cons] at hnd
    rw [List.foldl_cons]
    have hmemq : q.name ∈ (q :: rest).map FilterParam.name := by
      rw [List.map_cons]; exact List.mem_cons_self q.name _
    have hmemr : ∀ n : String, n ∈ rest.map FilterParam.name →
        n ∈ (q :: rest).map FilterParam.name := by
      intro n hn; rw [List.map_cons]; exact List.mem_cons_of_mem _ hn
    refine ih (topnParamStep std a q) hnd.2 ?_ ?_ ?_ ?_ ?_ ?_ <;>
      unfold topnParamStep <;> split_ifs with h1 h2 h3 h4 h5 h6 h7
    -- goal 1: the lost ledger stays empty
    · simpa using hl
    · have h0 : a.filebase = none := hf (h2 ▸ hmemq)
      simp [h0, hl]
    · have h0 : a.matchStr = none := hm (h3 ▸ hmemq)
      simp [h0, hl]
    · have h0 : a.exclude = none := hx (h4 ▸ hmemq)
      simp [h0, hl]
    · have h0 : a.source = none := hs (h5 ▸ hmemq)
      simp [h0, hl]
    · have h0 : a.user = none := hu (h6 ▸ hmemq)
      simp [h0, hl]
    · simpa using hl
    · simpa using hl
    -- goal 2: the filebase field stays empty if a filebase parameter is pending
    all_goals intro hmem
    · simpa using hf (hmemr _ hmem)
    · exact absurd (h2 ▸ hmem) hnd.1
    · simpa using hf (hmemr _ hmem)
    · simpa using hf (hmemr _ hmem)
    · simpa using hf (hmemr _ hmem)
    · simpa using hf (hmemr _ hmem)
    · simpa using hf (hmemr _ hmem)
    · simpa using hf (hmemr _ hmem)
    -- goal 3: the match field
    · simpa using hm (hmemr _ hmem)
    · simpa using hm (hmemr _ hmem)
    · exact absurd (h3 ▸ hmem) hnd.1
    · simpa using hm (hmemr _ hmem)
    · simpa using hm (hmemr _ hmem)
    · simpa using hm (hmemr _ hmem)
    · simpa using hm (hmemr _ hmem)
    · simpa using hm (hmemr _ hmem)
    -- goal 4: the exclude field
    · simpa using hx (hmemr _ hmem)
    · simpa using hx (hmemr _ hmem)
    · simpa using hx (hmemr _ hmem)
    · exact absurd (h4 ▸ hmem) hnd.1
    · simpa using hx (hmemr _ hmem)
    · simpa using hx (hmemr _ hmem)
    · simpa using hx (hmemr _ hmem)
    · simpa using hx (hmemr _ hmem)
    -- goal 5: the source field
    · simpa using hs (hmemr _ hmem)
    · simpa using hs (hmemr _ hmem)
    · simpa using hs (hmemr _ hmem)
    · simpa using hs (hmemr _ hmem)
    · exact absurd (h5 ▸ hmem) hnd.1
    · simpa using hs (hmemr _ hmem)
    · simpa using hs (hmemr _ hmem)
    · simpa using hs (hmemr _ hmem)
    -- goal 6: the user field
    · simpa using hu (hmemr _ hmem)
    · simpa using hu (hmemr _ hmem)
    · simpa using hu (hmemr _ hmem)
    · simpa using hu (hmemr _ hmem)
    · simpa using hu (hmemr _ hmem)
    · exact absurd (h6 ▸ hmem) hnd.1
    · simpa using hu (hmemr _ hmem)
    · simpa using hu (hmemr _ hmem)

/-- The parameter names qlafilter createInstance recognizes. -/
def qlaRecognized : List String :=
  ["match", "exclude", "source", "user", "filebase"]

/-- The parameter names topfilter createInstance recognizes. -/
def topnRecognized : List String :=
  ["count", "filebase", "match", "exclude", "source", "user"]

/-- Follows the words of claim C1, not the code: the query-logger
configurations for which the claim demands construction failure — a
supplied match or exclude pattern that does not compile under the
configured flags, a missing filebase, or a parameter that is neither
recognized nor standard. -/
def qlaSpecConfigError (regcomp : RegcompOracle) (std : String → Bool)
    (options : List String) (params : List FilterParam) : Prop :=
  (∃ p ∈ params, p.name = "match" ∧
    (regcomp (qlaCflags options) p.value).isNone = true) ∨
  (∃ p ∈ params, p.name = "exclude" ∧
    (regcomp (qlaCflags options) p.value).isNone = true) ∨
  (∀ p ∈ params, p.name ≠ "filebase") ∨
  (∃ p ∈ params, p.name ∉ qlaRecognized ∧ std p.name = false)

/-- Follows the words of claim C1 for the top-N filter (see
qlaSpecConfigError). -/
def topnSpecConfigError (regcomp : RegcompOracle) (std : String → Bool)
    (options : List String) (params : List FilterParam) : Prop :=
  (∃ p ∈ params, p.name = "match" ∧
    (regcomp (qlaCflags options) p.value).isNone = true) ∨
  (∃ p ∈ params, p.name = "exclude" ∧
    (regcomp (qlaCflags options) p.value).isNone = true) ∨
  (∀ p ∈ params, p.name ≠ "filebase") ∨
  (∃ p ∈ params, p.name ∉ topnRecognized ∧ std p.name = false)

/-- The qlafilter construction result carries the loop ledger unchanged. -/
theorem qlaCreateInstance_lost (regcomp : RegcompOracle) (std : String → Bool)
    (options : List String) (params : List FilterParam) :
    (qlaCreateInstance regcomp std options params).lost =
      (params.foldl (qlaParamStep std) qlaBuild0).lost := by
  simp only [qlaCreateInstance]
  split <;> rfl

/-- The topfilter construction result carries the loop ledger unchanged. -/
theorem topnCreateInstance_lost (regcomp : RegcompOracle) (std : String → Bool)
    (options : List String) (params : List FilterParam) :
    (topnCreateInstance regcomp std options params).lost =
      (params.foldl (topnParamStep std) topnBuild0).lost := by
  simp only [topnCreateInstance]
  split <;> rfl

/-- Any of the error conditions of the qlafilter construction yields no
instance. -/
theorem qlaCreateInstance_inst_none (regcomp : RegcompOracle)
    (std : String → Bool) (options : List String) (params : List FilterParam)
    (h : (params.foldl (qlaParamStep std) qlaBuild0).error = true ∨
      qlaOptionError options = true ∨
      (params.foldl (qlaParamStep std) qlaBuild0).filebase = none ∨
      (∃ m, (params.foldl (qlaParamStep std) qlaBuild0).matchStr = some m ∧
        regcomp (qlaCflags options) m = none) ∨
      (∃ m, (params.foldl (qlaParamStep std) qlaBuild0).nomatchStr = some m ∧
        regcomp (qlaCflags options) m = none)) :
    (qlaCreateInstance regcomp std options params).inst = none := by
  unfold qlaCreateInstance
  rcases h with h | h | h | ⟨m, hm, hc⟩ | ⟨m, hm, hc⟩
  · simp [h]
  · simp [h]
  · simp [h]
  · simp [hm, hc]
  · simp [hm, hc]

/-- Any of the error conditions of the topfilter construction yields no
instance. -/
theorem topnCreateInstance_inst_none (regcomp : RegcompOracle)
    (std : String → Bool) (options : List String) (params : List FilterParam)
    (h : (params.foldl (topnParamStep std) topnBuild0).error = true ∨
      qlaOptionError options = true ∨
      (params.foldl (topnParamStep std) topnBuild0).filebase = none ∨
      (∃ m, (params.foldl (topnParamStep std) topnBuild0).matchStr = some m ∧
        regcomp (qlaCflags options) m = none) ∨
      (∃ m, (params.foldl (topnParamStep std) topnBuild0).exclude = some m ∧
        regcomp (qlaCflags options) m = none)) :
    (topnCreateInstance regcomp std options params).inst = none := by
  unfold topnCreateInstance
  rcases h with h | h | h | ⟨m, hm, hc⟩ | ⟨m, hm, hc⟩
  · simp [h]
  · simp [h]
  · simp [h]
  · simp [hm, hc]
  · simp [hm, hc]

/-- Counterexample to claim C1 as stated: the hysteresis filter is handed a
match pattern that fails to compile (the oracle rejects every pattern) and
an unrecognized parameter (nothing is standard for this oracle), yet
createInstance still returns an instance instead of a failure result. -/
theorem ccr_createInstance_succeeds_despite_config_errors :
    (ccrCreateInstance (fun _ _ => none) (fun _ => false) []
      [⟨"match", "("⟩, ⟨"bogus", "1"⟩]).isSome = true := rfl

/-- Claim C1 (amended): for the query logger and the top-N filter, given
each parameter name at most once, any configuration the claim names as a
construction error — an uncompilable match/exclude pattern, a missing
filebase, an unrecognized parameter — makes createInstance return no
instance with every duplicated string and compiled pattern released (the
lost ledger is empty); the hysteresis filter instead only logs such errors
and still returns an instance. -/
theorem logger_and_topn_construction_fails_atomically
    (regcomp : RegcompOracle) (std : String → Bool)
    (options : List String) (params : List FilterParam)
    (hnd : (params.map FilterParam.name).Nodup) :
    (qlaSpecConfigError regcomp std options params →
      (qlaCreateInstance regcomp std options params).inst = none ∧
      (qlaCreateInstance regcomp std options params).lost = []) ∧
    (topnSpecConfigError regcomp std options params →
      (topnCreateInstance regcomp std options params).inst = none ∧
      (topnCreateInstance regcomp std options params).lost = []) ∧
    (ccrCreateInstance regcomp std options params).isSome = true := by
  have hlostq : (qlaCreateInstance regcomp std options params).lost = [] := by
    rw [qlaCreateInstance_lost]
    exact qla_foldl_lost_nil std params qlaBuild0 hnd rfl
      (fun _ => rfl) (fun _ => rfl) (fun _ => rfl) (fun _ => rfl) (fun _ => rfl)
  have hlostt : (topnCreateInstance regcomp std options params).lost = [] := by
    rw [topnCreateInstance_lost]
    exact topn_foldl_lost_nil std params topnBuild0 hnd rfl
      (fun _ => rfl) (fun _ => rfl) (fun _ => rfl) (fun _ => rfl) (fun _ => rfl)
  refine ⟨fun hspec => ⟨?_, hlostq⟩, fun hspec => ⟨?_, hlostt⟩, rfl⟩
  · apply qlaCreateInstance_inst_none
    rcases hspec with ⟨p, hp, hname, hcomp⟩ | ⟨p, hp, hname, hcomp⟩ | hfb |
      ⟨p, hp, hrec, hstd⟩
    · refine Or.inr (Or.inr (Or.inr (Or.inl ⟨p.value, ?_, ?_⟩)))
      · exact qla_foldl_match_value std params qlaBuild0 p hnd hp hname
      · exact Option.isNone_iff_eq_none.mp hcomp
    · refine Or.inr (Or.inr (Or.inr (Or.inr ⟨p.value, ?_, ?_⟩)))
      · exact qla_foldl_exclude_value std params qlaBuild0 p hnd hp hname
      · exact Option.isNone_iff_eq_none.mp hcomp
    · exact Or.inr (Or.inr (Or.inl
        (qla_foldl_filebase_none std params qlaBuild0 rfl hfb)))
    · simp only [qlaRecognized, List.mem_cons, List.not_mem_nil] at hrec
      push_neg at hrec
      exact Or.inl (qla_foldl_error_of_unrecognized std params qlaBuild0 p hp
        hrec.1 hrec.2.1 hrec.2.2.1 hrec.2.2.2.1 hrec.2.2.2.2.1 hstd)
  · apply topnCreateInstance_inst_none
    rcases hspec with ⟨p, hp, hname, hcomp⟩ | ⟨p, hp, hname, hcomp⟩ | hfb |
      ⟨p, hp, hrec, hstd⟩
    · refine Or.inr (Or.inr (Or.inr (Or.inl ⟨p.value, ?_, ?_⟩)))
      · exact topn_foldl_match_value std params topnBuild0 p hnd hp hname
      · exact Option.isNone_iff_eq_none.mp hcomp
    · refine Or.inr (Or.inr (Or.inr (Or.inr ⟨p.value, ?_, ?_⟩)))
      · exact topn_foldl_exclude_value std params topnBuild0 p hnd hp hname
      · exact Option.isNone_iff_eq_none.mp hcomp
    · exact Or.inr (Or.inr (Or.inl
        (topn_foldl_filebase_none std params topnBuild0 rfl hfb)))
    · simp only [topnRecognized, List.mem_cons, List.not_mem_nil] at hrec
      push_neg at hrec
      exact Or.inl (topn_foldl_error_of_unrecognized std params topnBuild0 p hp
        hrec.1 hrec.2.1 hrec.2.2.1 hrec.2.2.2.1 hrec.2.2.2.2.1
        hrec.2.2.2.2.2.1 hstd)

/-- Witness for the amended claim C1: the concrete parameter list
[match = "(", bogus = "1"] under an oracle that compiles nothing and
recognizes nothing as standard triggers the spec error conditions for
both filters, so both constructions fail with an empty lost ledger, while
the hysteresis construction still yields an instance. -/
theorem logger_and_topn_construction_fails_atomically_witness :
    (([⟨"match", "("⟩, ⟨"bogus", "1"⟩] : List FilterParam).map
        FilterParam.name).Nodup ∧
    qlaSpecConfigError (fun _ _ => none) (fun _ => false) []
      [⟨"match", "("⟩, ⟨"bogus", "1"⟩] ∧
    topnSpecConfigError (fun _ _ => none) (fun _ => false) []
      [⟨"match", "("⟩, ⟨"bogus", "1"⟩] ∧
    ((qlaCreateInstance (fun _ _ => none) (fun _ => false) []
        [⟨"match", "("⟩, ⟨"bogus", "1"⟩]).inst = none ∧
      (qlaCreateInstance (fun _ _ => none) (fun _ => false) []
        [⟨"match", "("⟩, ⟨"bogus", "1"⟩]).lost = []) ∧
    ((topnCreateInstance (fun _ _ => none) (fun _ => false) []
        [⟨"match", "("⟩, ⟨"bogus", "1"⟩]).inst = none ∧
      (topnCreateInstance (fun _ _ => none) (fun _ => false) []
        [⟨"match", "("⟩, ⟨"bogus", "1"⟩]).lost = []) ∧
    (ccrCreateInstance (fun _ _ => none) (fun _ => false) []
      [⟨"match", "("⟩, ⟨"bogus", "1"⟩]).isSome = true := by
  have hnd : (([⟨"match", "("⟩, ⟨"bogus", "1"⟩] : List FilterParam).map
      FilterParam.name).Nodup := by decide
  have hq : qlaSpecConfigError (fun _ _ => none) (fun _ => false) []
      [⟨"match", "("⟩, ⟨"bogus", "1"⟩] := by
    exact Or.inl ⟨⟨"match", "("⟩, by decide, rfl, rfl⟩
  have ht : topnSpecConfigError (fun _ _ => none) (fun _ => false) []
      [⟨"match", "("⟩, ⟨"bogus", "1"⟩] := by
    exact Or.inl ⟨⟨"match", "("⟩, by decide, rfl, rfl⟩
  have h := logger_and_topn_construction_fails_atomically
    (fun _ _ => none) (fun _ => false) [] [⟨"match", "("⟩, ⟨"bogus", "1"⟩] hnd
  exact ⟨hnd, hq, ht, h.1 hq, h.2.1 ht, h.2.2⟩

/-! ## Session file naming (claim C2) -/

/-- A fresh logger instance with filebase "base" and no filters, as
createInstance builds it from that single parameter. -/
def qlaInstBase : QLA_INSTANCE :=
  { sessions := 0, filebase := "base", source := none, userName := none,
    matchStr := none, re := none, nomatchStr := none, nore := none }

/-- A fresh top-N instance with two slots, filebase "base" and no filters,
as createInstance builds it from those two parameters. -/
def topnInstBase : TOPN_INSTANCE :=
  { sessions := 0, topN := 2, filebase := "base", source := none,
    user := none, matchStr := none, re := none, exclude := none,
    exre := none }

/-- Claim C2 evaluated on the code: both instances above come out of
createInstance; the first logger session (counter 0) derives file name
base.0 as the claim says, but the first top-N session derives base.1,
because topfilter newSession rewrites the name after incrementing the
counter (topfilter.c line 346), so no top-N session ever uses index 0. -/
theorem topn_first_session_file_name_skips_index_zero :
    (qlaCreateInstance (fun _ _ => none) (fun _ => false) []
      [⟨"filebase", "base"⟩]).inst = some qlaInstBase ∧
    (topnCreateInstance (fun _ _ => none) (fun _ => false) []
      [⟨"count", "2"⟩, ⟨"filebase", "base"⟩]).inst = some topnInstBase ∧
    (qlaNewSession qlaInstBase "10.0.0.1" "alice" true).1 =
      some { filename := "base.0", fpOpen := true, active := true,
             user := "alice", remote := "10.0.0.1" } ∧
    (topnNewSession topnInstBase (some "10.0.0.1") (some "alice")
      ⟨0, 0⟩).1.filename = "base.1" :=
  ⟨rfl, rfl, rfl, rfl⟩

/-! ## Ranking invariants (claims C4 and C6) -/

/-- Filling the first free slot keeps the number of slots. -/
theorem insertFirstFree_length (d : Timeval) (c : String) :
    ∀ (l l' : List TOPNQ), insertFirstFree l d c = some l' →
      l'.length = l.length := by
  intro l
  induction l with
  | nil => intro l' h; simp [insertFirstFree] at h
  | cons e rest ih =>
    intro l' h
    unfold insertFirstFree at h
    by_cases he : e.sql.isNone
    · rw [if_pos he] at h
      cases h
      simp
    · rw [if_neg he] at h
      rcases Option.map_eq_some'.mp h with ⟨l'', h1, h2⟩
      rw [← h2]
      simp [ih l'' h1]

/-- When every slot is occupied there is no free slot to fill. -/
theorem insertFirstFree_none (d : Timeval) (c : String) :
    ∀ l : List TOPNQ, (∀ e ∈ l, e.sql.isSome = true) →
      insertFirstFree l d c = none := by
  intro l
  induction l with
  | nil => intro _; rfl
  | cons e rest ih =>
    intro h
    have he := h e (List.mem_cons_self e rest)
    unfold insertFirstFree
    rw [if_neg (by simp_all [Option.isSome_iff_ne_none]),
      ih (fun x hx => h x (List.mem_cons_of_mem e hx))]
    rfl

/-- A replicated slot list is sorted for any reflexive point. -/
theorem sorted_replicate_topn (n : Nat) (x : TOPNQ) (hx : topnBefore x x) :
    List.Sorted topnBefore (List.replicate n x) := by
  induction n with
  | zero => simp
  | succ k ih =>
    rw [List.replicate_succ, List.sorted_cons]
    exact ⟨fun b hb => by rw [List.eq_of_mem_replicate hb]; exact hx, ih⟩

/-- routeQuery never touches the ranking. -/
theorem topnRouteQuery_top (inst : TOPN_INSTANCE) (s : TOPN_SESSION)
    (now : Timeval) (q : TopnQuery) :
    (topnRouteQuery inst s now q).1.top = s.top := by
  unfold topnRouteQuery
  repeat' split
  all_goals rfl

/-- clientReply keeps the slot count and leaves the ranking sorted. -/
theorem topnClientReply_inv (inst : TOPN_INSTANCE) (s : TOPN_SESSION)
    (now : Timeval) (n : Nat)
    (h : s.top.length = n ∧ List.Sorted topnBefore s.top) :
    (topnClientReply inst s now).top.length = n ∧
      List.Sorted topnBefore (topnClientReply inst s now).top := by
  cases hc : s.current with
  | none =>
    simp only [topnClientReply, hc]
    exact h
  | some cur =>
    cases hins : insertFirstFree s.top (timersub now s.start) cur with
    | some top1 =>
      simp only [topnClientReply, hc, hins]
      refine ⟨?_, List.sorted_insertionSort topnBefore top1⟩
      rw [(List.perm_insertionSort topnBefore top1).length_eq,
        insertFirstFree_length _ _ _ _ hins]
      exact h.1
    | none =>
      cases hlast : s.top.getLast? with
      | some last =>
        simp only [topnClientReply, hc, hins, hlast]
        split_ifs with hrep
        · refine ⟨?_, List.sorted_insertionSort topnBefore _⟩
          rw [(List.perm_insertionSort topnBefore _).length_eq]
          have hne : s.top ≠ [] := fun hnil => by simp [hnil] at hlast
          have hpos : 0 < s.top.length := List.length_pos.mpr hne
          have h1 := h.1
          simp only [List.length_append, List.length_dropLast,
            List.length_cons, List.length_nil]
          omega
        · exact h
      | none =>
        simp only [topnClientReply, hc, hins, hlast]
        exact h

/-- Unfolding one call of a run. -/
theorem topnRun_cons (inst : TOPN_INSTANCE) (s : TOPN_SESSION)
    (c : TopnCall) (rest : List TopnCall) :
    topnRun inst s (c :: rest) = topnRun inst
      (match c with
       | TopnCall.route now q => (topnRouteQuery inst s now q).1
       | TopnCall.reply now => topnClientReply inst s now) rest := rfl

/-- The slot count and sortedness are preserved along any run. -/
theorem topnRun_inv (inst : TOPN_INSTANCE) (calls : List TopnCall) :
    ∀ (s : TOPN_SESSION) (n : Nat),
      s.top.length = n → List.Sorted topnBefore s.top →
      (topnRun inst s calls).top.length = n ∧
        List.Sorted topnBefore (topnRun inst s calls).top := by
  induction calls with
  | nil => intro s n h1 h2; exact ⟨h1, h2⟩
  | cons c rest ih =>
    intro s n h1 h2
    rw [topnRun_cons]
    cases c with
    | route now q =>
      refine ih _ n ?_ ?_
      · rw [topnRouteQuery_top]; exact h1
      · rw [topnRouteQuery_top]; exact h2
    | reply now =>
      obtain ⟨h1n, h2n⟩ := topnClientReply_inv inst s now n ⟨h1, h2⟩
      exact ih _ n h1n h2n

/-- The cmp_topn order says durations are weakly decreasing. -/
theorem topnBefore_durations (a b : TOPNQ) (h : topnBefore a b) :
    b.duration.tv_sec < a.duration.tv_sec ∨
      (b.duration.tv_sec = a.duration.tv_sec ∧
        b.duration.tv_usec ≤ a.duration.tv_usec) := by
  unfold topnBefore cmp_topn at h
  by_cases hs : b.duration.tv_sec = a.duration.tv_sec <;>
    simp [hs] at h <;> omega

/-- Claim C4: starting from a fresh session of any top-N instance, after any
sequence of routeQuery and clientReply calls the occupied ranked entries
never number more than topN, and they are sorted by weakly decreasing
duration (seconds first, microseconds on a tie). -/
theorem topn_sequence_bounded_and_sorted (inst : TOPN_INSTANCE)
    (remote user : Option String) (connect : Timeval)
    (calls : List TopnCall) :
    ((topnRun inst (topnNewSession inst remote user connect).1
        calls).top.filter (fun e => e.sql.isSome)).length ≤ inst.topN.toNat ∧
      List.Sorted (fun a b =>
          b.duration.tv_sec < a.duration.tv_sec ∨
            (b.duration.tv_sec = a.duration.tv_sec ∧
              b.duration.tv_usec ≤ a.duration.tv_usec))
        ((topnRun inst (topnNewSession inst remote user connect).1
            calls).top.filter (fun e => e.sql.isSome)) := by
  have h0len : (topnNewSession inst remote user connect).1.top.length =
      inst.topN.toNat := by
    simp [topnNewSession]
  have h0sorted : List.Sorted topnBefore
      (topnNewSession inst remote user connect).1.top := by
    simp only [topnNewSession]
    exact sorted_replicate_topn _ _ (by unfold topnBefore cmp_topn; simp)
  obtain ⟨hlen, hsorted⟩ := topnRun_inv inst calls _ _ h0len h0sorted
  constructor
  · calc ((topnRun inst (topnNewSession inst remote user connect).1
          calls).top.filter (fun e => e.sql.isSome)).length
        ≤ (topnRun inst (topnNewSession inst remote user connect).1
            calls).top.length := List.length_filter_le _ _
      _ = inst.topN.toNat := hlen
  · exact (hsorted.filter _).imp (fun h => topnBefore_durations _ _ h)

/-- Claim C6: for a session whose ranked sequence is fully occupied, a
reply whose measured duration does not exceed the smallest kept duration
leaves the ranked sequence unchanged, and the pending text is discarded. -/
theorem topn_full_sequence_small_reply_is_noop (inst : TOPN_INSTANCE)
    (s : TOPN_SESSION) (now : Timeval) (cur : String)
    (hcur : s.current = some cur)
    (hfull : ∀ e ∈ s.top, e.sql.isSome = true)
    (hsmall : ∀ last, s.top.getLast? = some last →
      (timersub now s.start).tv_sec < last.duration.tv_sec ∨
        ((timersub now s.start).tv_sec = last.duration.tv_sec ∧
          (timersub now s.start).tv_usec ≤ last.duration.tv_usec)) :
    (topnClientReply inst s now).top = s.top ∧
      (topnClientReply inst s now).current = none := by
  have hins := insertFirstFree_none (timersub now s.start) cur s.top hfull
  cases hlast : s.top.getLast? with
  | none =>
    simp [topnClientReply, hcur, hins, hlast]
  | some last =>
    have hsm := hsmall last hlast
    simp only [topnClientReply, hcur, hins, hlast]
    rw [if_neg (by omega)]
    exact ⟨rfl, rfl⟩

/-- A full two-slot session about to receive a reply faster than both kept
entries. -/
def topnSessFull : TOPN_SESSION :=
  { active := true, clientHost := none, userName := none,
    filename := "base.1", start := ⟨0, 0⟩, current := some "select 2",
    top := [{ duration := ⟨5, 0⟩, sql := some "slow" },
            { duration := ⟨4, 0⟩, sql := some "slower" }],
    n_statements := 3, total := ⟨9, 0⟩, connect := ⟨0, 0⟩ }

/-- Witness for claim C6: a reply after 3 seconds against kept durations of
5 and 4 seconds changes nothing and clears the pending slot. -/
theorem topn_full_sequence_small_reply_is_noop_witness :
    topnSessFull.current = some "select 2" ∧
    (∀ e ∈ topnSessFull.top, e.sql.isSome = true) ∧
    ((topnClientReply topnInstBase topnSessFull ⟨3, 0⟩).top =
        topnSessFull.top ∧
      (topnClientReply topnInstBase topnSessFull ⟨3, 0⟩).current = none) :=
  ⟨rfl, by decide,
    topn_full_sequence_small_reply_is_noop topnInstBase topnSessFull ⟨3, 0⟩
      "select 2" rfl (by decide)
      (fun last hlast => by
        have hl : { duration := (⟨4, 0⟩ : Timeval), sql := some "slower" } =
            last := by injection hlast
        subst hl
        decide)⟩

/-- qlafilter routeQuery always forwards the incoming queue unchanged. -/
theorem qlaRouteQuery_forwards (inst : QLA_INSTANCE) (s : QLA_SESSION)
    (q : QLAQuery) : (qlaRouteQuery inst s q).2 = q := by
  unfold qlaRouteQuery
  repeat' split
  all_goals rfl

/-- Claim C7: an active logger session, handed a request whose extracted
SQL passes the configured match pattern (or none is configured) and is not
caught by the exclude pattern (or none is configured), appends exactly one
line timestamp,user at remote,normalized-SQL to its file, and the original
message is forwarded downstream unchanged whatever the logging outcome. -/
theorem qla_logs_exactly_one_line_and_forwards (inst : QLA_INSTANCE)
    (s : QLA_SESSION) (q : QLAQuery) (ptr : String)
    (hact : s.active = true) (hsql : q.sql = some ptr)
    (hm : (inst.matchStr.isNone || regexecMatches inst.re ptr) = true)
    (hx : (inst.nomatchStr.isNone || !regexecMatches inst.nore ptr) = true) :
    qlaRouteQuery inst s q =
      (some (q.timestamp ++ "," ++ s.user ++ "@" ++ s.remote ++ "," ++
        trimWs (squeeze_whitespace ptr) ++ "\n"), q) ∧
    (∀ q' : QLAQuery, (qlaRouteQuery inst s q').2 = q') := by
  refine ⟨?_, fun q' => qlaRouteQuery_forwards inst s q'⟩
  simp [qlaRouteQuery, hact, hsql, hm, hx]

/-- An active logger session of qlaInstBase. -/
def qlaSessActive : QLA_SESSION :=
  { filename := "base.0", fpOpen := true, active := true,
    user := "alice", remote := "10.0.0.1" }

/-- A request carrying SQL with redundant whitespace. -/
def qlaTestQuery : QLAQuery :=
  { sql := some "select   1 ", timestamp := "2016-10-02 12:00:00" }

/-- Witness for claim C7 on concrete data: the single appended line holds
the whitespace-normalized statement. -/
theorem qla_logs_exactly_one_line_and_forwards_witness :
    qlaSessActive.active = true ∧
    qlaRouteQuery qlaInstBase qlaSessActive qlaTestQuery =
      (some "2016-10-02 12:00:00,alice@10.0.0.1,select 1\n", qlaTestQuery) :=
  ⟨rfl,
    (qla_logs_exactly_one_line_and_forwards qlaInstBase qlaSessActive
      qlaTestQuery "select   1 " rfl rfl rfl rfl).1⟩

/-- Claim C8: a session whose active flag is false performs no
filter-specific side effect yet forwards every message: an inactive logger
session was created without opening its file, its routeQuery writes nothing
and forwards the queue; an inactive top-N routeQuery changes nothing and
forwards the queue; and a whole run over an inactive top-N session with no
pending statement leaves the session exactly as it was. -/
theorem inactive_sessions_forward_without_side_effects :
    (∀ (inst : QLA_INSTANCE) (remote user : String) (openOk : Bool)
        (sess : QLA_SESSION),
      (qlaNewSession inst remote user openOk).1 = some sess →
      sess.active = false → sess.fpOpen = false) ∧
    (∀ (inst : QLA_INSTANCE) (s : QLA_SESSION) (q : QLAQuery),
      s.active = false → qlaRouteQuery inst s q = (none, q)) ∧
    (∀ (inst : TOPN_INSTANCE) (s : TOPN_SESSION) (now : Timeval)
        (q : TopnQuery),
      s.active = false → topnRouteQuery inst s now q = (s, q)) ∧
    (∀ (inst : TOPN_INSTANCE) (s : TOPN_SESSION) (calls : List TopnCall),
      s.active = false → s.current = none → topnRun inst s calls = s) := by
  refine ⟨?_, ?_, ?_, ?_⟩
  · intro inst remote user openOk sess hsess hact
    simp only [qlaNewSession] at hsess
    split_ifs at hsess with h1 h2
    · injection hsess with h
      rw [← h] at hact
      simp at hact
    · injection hsess with h
      rw [← h]
  · intro inst s q hact
    simp [qlaRouteQuery, hact]
  · intro inst s now q hact
    simp [topnRouteQuery, hact]
  · intro inst s calls hact hcur
    induction calls with
    | nil => rfl
    | cons c rest ih =>
      rw [topnRun_cons]
      have hstep : (match c with
          | TopnCall.route now q => (topnRouteQuery inst s now q).1
          | TopnCall.reply now => topnClientReply inst s now) = s := by
        cases c with
        | route now q => simp [topnRouteQuery, hact]
        | reply now => simp [topnClientReply, hcur]
      rw [hstep]
      exact ih

/-- A logger instance restricted to source 10.0.0.1. -/
def qlaInstSrc : QLA_INSTANCE :=
  { sessions := 0, filebase := "base", source := some "10.0.0.1",
    userName := none, matchStr := none, re := none, nomatchStr := none,
    nore := none }

/-- The inactive logger session a mismatching client gets from qlaInstSrc. -/
def qlaSessInactive : QLA_SESSION :=
  { filename := "base.0", fpOpen := false, active := false,
    user := "bob", remote := "10.0.0.9" }

/-- An inactive top-N session with two empty slots. -/
def topnSessInactive : TOPN_SESSION :=
  { active := false, clientHost := some "10.0.0.9", userName := some "bob",
    filename := "base.1", start := ⟨0, 0⟩, current := none,
    top := List.replicate 2 { duration := ⟨0, 0⟩, sql := none },
    n_statements := 0, total := ⟨0, 0⟩, connect := ⟨0, 0⟩ }

/-- Witness for claim C8 on concrete data: a client from 10.0.0.9 against a
source filter of 10.0.0.1 yields an inactive session with no open file, and
the concrete inactive sessions forward while changing nothing. -/
theorem inactive_sessions_forward_without_side_effects_witness :
    (qlaNewSession qlaInstSrc "10.0.0.9" "bob" true).1 =
      some qlaSessInactive ∧
    qlaSessInactive.fpOpen = false ∧
    qlaRouteQuery qlaInstSrc qlaSessInactive qlaTestQuery =
      (none, qlaTestQuery) ∧
    topnRouteQuery topnInstBase topnSessInactive ⟨1, 0⟩ ⟨some "select 1"⟩ =
      (topnSessInactive, ⟨some "select 1"⟩) ∧
    topnRun topnInstBase topnSessInactive
      [TopnCall.route ⟨1, 0⟩ ⟨some "select 1"⟩, TopnCall.reply ⟨2, 0⟩] =
      topnSessInactive :=
  ⟨rfl,
    (inactive_sessions_forward_without_side_effects).1 qlaInstSrc "10.0.0.9"
      "bob" true qlaSessInactive rfl rfl,
    (inactive_sessions_forward_without_side_effects).2.1 qlaInstSrc
      qlaSessInactive qlaTestQuery rfl,
    (inactive_sessions_forward_without_side_effects).2.2.1 topnInstBase
      topnSessInactive ⟨1, 0⟩ ⟨some "select 1"⟩ rfl,
    (inactive_sessions_forward_without_side_effects).2.2.2 topnInstBase
      topnSessInactive
      [TopnCall.route ⟨1, 0⟩ ⟨some "select 1"⟩, TopnCall.reply ⟨2, 0⟩]
      rfl rfl⟩

/-- clientReply never changes the statement counter. -/
theorem topnClientReply_n_statements (inst : TOPN_INSTANCE)
    (s : TOPN_SESSION) (now : Timeval) :
    (topnClientReply inst s now).n_statements = s.n_statements := by
  cases hc : s.current with
  | none => simp [topnClientReply, hc]
  | some cur =>
    cases hins : insertFirstFree s.top (timersub now s.start) cur with
    | some top1 => simp [topnClientReply, hc, hins]
    | none =>
      cases hlast : s.top.getLast? with
      | some last =>
        simp only [topnClientReply, hc, hins, hlast]
        split_ifs <;> rfl
      | none => simp [topnClientReply, hc, hins, hlast]

/-- Unfolding a run headed by a request. -/
theorem topnRun_route (inst : TOPN_INSTANCE) (s : TOPN_SESSION)
    (now : Timeval) (q : TopnQuery) (rest : List TopnCall) :
    topnRun inst s (TopnCall.route now q :: rest) =
      topnRun inst (topnRouteQuery inst s now q).1 rest := rfl

/-- Unfolding a run headed by a reply. -/
theorem topnRun_reply (inst : TOPN_INSTANCE) (s : TOPN_SESSION)
    (now : Timeval) (rest : List TopnCall) :
    topnRun inst s (TopnCall.reply now :: rest) =
      topnRun inst (topnClientReply inst s now) rest := rfl

/-- routeQuery either leaves the session alone or counts one statement and
records it as pending. -/
theorem topnRouteQuery_cases (inst : TOPN_INSTANCE) (s : TOPN_SESSION)
    (now : Timeval) (q : TopnQuery) :
    (topnRouteQuery inst s now q).1 = s ∨
      ∃ ptr, (topnRouteQuery inst s now q).1 =
        { s with n_statements := s.n_statements + 1, start := now,
                 current := some ptr } := by
  unfold topnRouteQuery
  repeat' split
  all_goals first
    | (left; rfl)
    | (right; exact ⟨_, rfl⟩)

/-- Along any run, the statement counter stays nonnegative, and while it is
zero nothing is pending and the running total is still zero. -/
theorem topnRun_zero_statements (inst : TOPN_INSTANCE)
    (calls : List TopnCall) :
    ∀ s : TOPN_SESSION, 0 ≤ s.n_statements →
      (s.n_statements = 0 → s.current = none ∧ s.total = ⟨0, 0⟩) →
      0 ≤ (topnRun inst s calls).n_statements ∧
        ((topnRun inst s calls).n_statements = 0 →
          (topnRun inst s calls).current = none ∧
          (topnRun inst s calls).total = ⟨0, 0⟩) := by
  induction calls with
  | nil => intro s h1 h2; exact ⟨h1, h2⟩
  | cons c rest ih =>
    intro s h1 h2
    cases c with
    | route now q =>
      rw [topnRun_route]
      rcases topnRouteQuery_cases inst s now q with hr | ⟨ptr, hr⟩
      · rw [hr]
        exact ih s h1 h2
      · rw [hr]
        refine ih _ ?_ ?_
        · show 0 ≤ s.n_statements + 1
          omega
        · intro hz
          exact absurd hz (by show s.n_statements + 1 ≠ 0; omega)
    | reply now =>
      rw [topnRun_reply]
      refine ih _ ?_ ?_
      · rw [topnClientReply_n_statements]; exact h1
      · intro h0
        rw [topnClientReply_n_statements] at h0
        have hc := h2 h0
        have hnz : topnClientReply inst s now = s := by
          simp [topnClientReply, hc.1]
        rw [hnz]
        exact hc

/-- Claim C10: when a top-N session has counted no statements by the time
it closes, the report is still produced with the divisor replaced by 1: it
states 1 executed statement and an average execution time of 0. -/
theorem topn_zero_statement_report (inst : TOPN_INSTANCE)
    (remote user : Option String) (connect : Timeval) (calls : List TopnCall)
    (h0 : (topnRun inst (topnNewSession inst remote user connect).1
      calls).n_statements = 0) :
    (topnCloseReport (topnRun inst
        (topnNewSession inst remote user connect).1 calls)).statements = 1 ∧
      (topnCloseReport (topnRun inst
        (topnNewSession inst remote user connect).1 calls)).avgSeconds = 0 := by
  have hinit1 : 0 ≤ (topnNewSession inst remote user connect).1.n_statements := by
    simp [topnNewSession]
  have hinit2 : (topnNewSession inst remote user connect).1.n_statements = 0 →
      (topnNewSession inst remote user connect).1.current = none ∧
      (topnNewSession inst remote user connect).1.total = ⟨0, 0⟩ := by
    intro _
    exact ⟨rfl, rfl⟩
  obtain ⟨-, hrun⟩ := topnRun_zero_statements inst calls _ hinit1 hinit2
  obtain ⟨-, htot⟩ := hrun h0
  unfold topnCloseReport
  rw [htot, h0]
  norm_num

/-- Witness for claim C10: a session that receives no calls at all closes
with zero statements, and the report shows 1 statement and average 0. -/
theorem topn_zero_statement_report_witness :
    (topnRun topnInstBase
      (topnNewSession topnInstBase none none ⟨0, 0⟩).1 []).n_statements = 0 ∧
    ((topnCloseReport (topnRun topnInstBase
        (topnNewSession topnInstBase none none ⟨0, 0⟩).1 [])).statements = 1 ∧
      (topnCloseReport (topnRun topnInstBase
        (topnNewSession topnInstBase none none ⟨0, 0⟩).1 [])).avgSeconds = 0) :=
  ⟨rfl, topn_zero_statement_report topnInstBase none none ⟨0, 0⟩ [] rfl⟩
